import Mathlib

/-!
Verification development for the `parserc` parser-combinator framework
(crates `span`, `parserc`, `pattex`, `derive`).

The Rust sources are shallowly embedded: parsers over a mutable cursor are
modelled as functions from a cursor to a result that carries both the
outcome and the cursor state after the call, so that statements about
"the cursor is unchanged on failure" are directly expressible.
Machine integers (`usize`, `u64`) are modelled as `Nat`; the only place an
overflow check matters (`str::parse::<u64>`) performs it explicitly.
-/

namespace Parserc

/-- Severity tags, from `ControlFlow` in src/crates/parserc/src/errors.rs
(the source spells the middle variant `Recovable`). -/
inductive ControlFlow where
  | Fatal
  | Recovable
  | Incomplete
deriving DecidableEq, Repr

/-- Source spans, from `Span<Idx>` in src/crates/span/src/lib.rs,
instantiated at `Idx = usize` (modelled as `Nat`). -/
inductive Span where
  | None
  | Range (s e : Nat)
  | RangeFrom (s : Nat)
  | RangeTo (e : Nat)
  | RangeFull
deriving DecidableEq, Repr

/-- `Span::union`, transcribed arm-by-arm from src/crates/span/src/lib.rs
lines 132-196 (including its asymmetric `RangeFrom`/`Range` and
`RangeTo`/`RangeFrom` arms). -/
def Span.union : Span → Span → Span
  | .None, .None => .None
  | .None, .Range s e => .Range s e
  | .None, .RangeFrom s => .RangeFrom s
  | .None, .RangeTo e => .RangeTo e
  | .Range s e, .None => .Range s e
  | .Range s e, .Range s' e' => .Range (min s s') (max e e')
  | .Range s _, .RangeFrom s' => .RangeFrom (min s s')
  | .Range _ e, .RangeTo e' => .RangeTo (max e e')
  | .RangeFrom s, .None => .RangeFrom s
  | .RangeFrom s, .Range _ e => if s > e then .None else .Range s e
  | .RangeFrom s, .RangeFrom s' => .RangeFrom (min s s')
  | .RangeFrom _, .RangeTo _ => .RangeFull
  | .RangeTo e, .None => .RangeTo e
  | .RangeTo e, .Range _ e' => .RangeTo (max e e')
  | .RangeTo e, .RangeFrom s => if e < s then .None else .RangeFull
  | .RangeTo e, .RangeTo e' => .RangeTo (max e e')
  | .None, .RangeFull => .RangeFull
  | .Range _ _, .RangeFull => .RangeFull
  | .RangeFrom _, .RangeFull => .RangeFull
  | .RangeTo _, .RangeFull => .RangeFull
  | .RangeFull, .None => .RangeFull
  | .RangeFull, .Range _ _ => .RangeFull
  | .RangeFull, .RangeFrom _ => .RangeFull
  | .RangeFull, .RangeTo _ => .RangeFull
  | .RangeFull, .RangeFull => .RangeFull

/-- Error kinds of the builtin combinators, from `Kind` in
src/crates/parserc/src/errors.rs. The variant the source calls `Syntax`
is rendered `Stx` here; payloads are kept verbatim. -/
inductive Kind where
  | Next (cf : ControlFlow) (sp : Span)
  | NextIf (cf : ControlFlow) (sp : Span)
  | Keyword (cf : ControlFlow) (sp : Span)
  | Stx (name : String) (cf : ControlFlow) (sp : Span)
  | Token (name : String) (cf : ControlFlow) (sp : Span)
  | LimitsTo (cf : ControlFlow) (sp : Span)
  | Limits (cf : ControlFlow) (sp : Span)
  | LimitsFrom (cf : ControlFlow) (sp : Span)
deriving DecidableEq, Repr

/-- `Kind::control_flow` from src/crates/parserc/src/errors.rs. -/
def Kind.controlFlow : Kind → ControlFlow
  | .Next cf _ => cf
  | .NextIf cf _ => cf
  | .Keyword cf _ => cf
  | .Stx _ cf _ => cf
  | .Token _ cf _ => cf
  | .LimitsTo cf _ => cf
  | .Limits cf _ => cf
  | .LimitsFrom cf _ => cf

/-- `Kind::into_fatal` from src/crates/parserc/src/errors.rs: total and
payload-preserving, it only rewrites the severity to `Fatal`. -/
def Kind.intoFatal : Kind → Kind
  | .Next _ sp => .Next .Fatal sp
  | .NextIf _ sp => .NextIf .Fatal sp
  | .Keyword _ sp => .Keyword .Fatal sp
  | .Stx name _ sp => .Stx name .Fatal sp
  | .Token name _ sp => .Token name .Fatal sp
  | .LimitsTo _ sp => .LimitsTo .Fatal sp
  | .Limits _ sp => .Limits .Fatal sp
  | .LimitsFrom _ sp => .LimitsFrom .Fatal sp

/-- `Kind::span` from src/crates/parserc/src/errors.rs. -/
def Kind.spanOf : Kind → Span
  | .Next _ sp => sp
  | .NextIf _ sp => sp
  | .Keyword _ sp => sp
  | .Stx _ _ sp => sp
  | .Token _ _ sp => sp
  | .LimitsTo _ sp => sp
  | .Limits _ sp => sp
  | .LimitsFrom _ sp => sp

/-- The `ParseError` capability (src/crates/parserc/src/errors.rs) together
with the `From<Kind>` bound the lexer primitives require. -/
class ParseErrorC (E : Type) where
  controlFlow : E → ControlFlow
  intoFatal : E → E
  spanOf : E → Span
  fromKind : Kind → E

instance : ParseErrorC Kind where
  controlFlow := Kind.controlFlow
  intoFatal := Kind.intoFatal
  spanOf := Kind.spanOf
  fromKind := id

/-- Modelled from the spec: the concrete cursor type is declared in
src/crates/parserc/src/lib.rs (`mod input`) but src/crates/parserc/src/input.rs
is missing from src/. Per spec §3 a cursor is an O(1)-cloneable view
(shared immutable buffer, offset, length); it is modelled as the absolute
start offset plus the remaining items (`char`s, each of length 1).
The concrete slices in the pattex unit tests (`TokenStream::from((1, "10"))`)
use exactly this (offset, content) representation. -/
structure Cursor where
  offset : Nat
  rest : List Char
deriving DecidableEq, Repr

/-- Modelled from the spec: `start()` of a cursor (spec §4.3, absolute start offset). -/
def Cursor.start (c : Cursor) : Nat := c.offset

/-- Modelled from the spec: `end()` of a cursor (spec §4.3, absolute end offset). -/
def Cursor.endPos (c : Cursor) : Nat := c.offset + c.rest.length

/-- Modelled from the spec: `split_to(at)` (spec §3) returns the prefix of
length `at` and advances the cursor past it; rendered functionally as the
pair (returned prefix, cursor state after the call). -/
def Cursor.splitTo (c : Cursor) (n : Nat) : Cursor × Cursor :=
  (⟨c.offset, c.rest.take n⟩, ⟨c.offset + n, c.rest.drop n⟩)

/-- Modelled from the spec: `to_span()` of a cursor, the span of its
remaining view (missing input.rs; offsets are absolute per spec §4.3). -/
def Cursor.toSpan (c : Cursor) : Span :=
  Span.Range c.offset (c.offset + c.rest.length)

/-- Result of running a parser on a (mutable) cursor: the outcome plus the
cursor state after the call. This renders the `&mut I` discipline of
src/crates/parserc/src/lexer.rs and src/crates/parserc/src/syntax.rs (and
the value-threading `Result<O, I, E>` of src/crates/parserc/src/parser.rs)
so that cursor-restoration claims are directly expressible. -/
inductive PResult (O E : Type) where
  | ok (o : O) (rest : Cursor)
  | err (e : E) (rest : Cursor)
deriving DecidableEq, Repr

/-- A parser, per the blanket impl in src/crates/parserc/src/parser.rs:
any function from the input cursor to a result is a `Parser`. -/
abbrev ParserFn (O E : Type) : Type := Cursor → PResult O E

/-- `IsOk::parse` from src/crates/parserc/src/parser.rs lines 98-105: run the
inner parser on a clone of the input; success and `Fatal` failure pass
through, any other failure becomes `Ok(None)` with the original cursor. -/
def isOk {O E : Type} [ParseErrorC E] (p : ParserFn O E) : ParserFn (Option O) E :=
  fun input =>
    match p input with
    | .ok t i => .ok (some t) i
    | .err e i =>
      if ParseErrorC.controlFlow e = ControlFlow.Fatal then .err e i
      else .ok Option.none input

/-- `Fatal::parse` from src/crates/parserc/src/parser.rs lines 138-143:
every error of the inner parser is escalated via `into_fatal`. -/
def fatalP {O E : Type} [ParseErrorC E] (p : ParserFn O E) : ParserFn O E :=
  fun input =>
    match p input with
    | .err e i => .err (ParseErrorC.intoFatal e) i
    | r => r

/-- `next(item)` from src/crates/parserc/src/lexer.rs lines 13-29: match the
next item exactly; a mismatch is `Recovable`, end of input is `Incomplete`.
The error carries the cloned cursor; its conversion to a `Kind` span lives
in the missing input.rs and is modelled as `to_span()` of that clone. -/
def next {E : Type} [ParseErrorC E] (c : Char) : ParserFn Cursor E :=
  fun input =>
    match input.rest with
    | x :: _ =>
      if x = c then
        let s := input.splitTo 1
        .ok s.1 s.2
      else
        .err (ParseErrorC.fromKind (Kind.Next .Recovable input.toSpan)) input
    | [] => .err (ParseErrorC.fromKind (Kind.Next .Incomplete input.toSpan)) input

/-- `next_if(f)` from src/crates/parserc/src/lexer.rs lines 33-50: match the
next item by predicate; both the mismatch and the end-of-input branches
raise `Recovable`. -/
def nextIf {E : Type} [ParseErrorC E] (f : Char → Bool) : ParserFn Cursor E :=
  fun input =>
    match input.rest with
    | x :: _ =>
      if f x then
        let s := input.splitTo 1
        .ok s.1 s.2
      else
        .err (ParseErrorC.fromKind (Kind.NextIf .Recovable input.toSpan)) input
    | [] => .err (ParseErrorC.fromKind (Kind.NextIf .Recovable input.toSpan)) input

/-- `keyword(kw)` from src/crates/parserc/src/lexer.rs lines 54-67, with
`starts_with` (missing input.rs) modelled from spec §4.3 as plain prefix
matching returning the matched length. -/
def keywordP {E : Type} [ParseErrorC E] (kw : List Char) : ParserFn Cursor E :=
  fun input =>
    if kw.isPrefixOf input.rest then
      let s := input.splitTo kw.length
      .ok s.1 s.2
    else
      .err (ParseErrorC.fromKind (Kind.Keyword .Recovable input.toSpan)) input

/-- Modelled from the spec: `find(needle)` of the missing input.rs
(spec §4.3 `find(needle)->Option<offset>`), the offset of the first
occurrence of the needle in the remaining items. -/
def findSub (needle : List Char) : List Char → Option Nat
  | [] => if needle.isPrefixOf ([] : List Char) then some 0 else Option.none
  | x :: xs =>
    if needle.isPrefixOf (x :: xs) then some 0
    else (findSub needle xs).map (· + 1)

/-- `take_until(keyword)` from src/crates/parserc/src/lexer.rs lines 73-86:
split at the first occurrence of the keyword, or split off an empty prefix
when the keyword never occurs. Neither branch produces an error. -/
def takeUntil {E : Type} [ParseErrorC E] (kw : List Char) : ParserFn Cursor E :=
  fun input =>
    match findSub kw input.rest with
    | some off =>
      let s := input.splitTo off
      .ok s.1 s.2
    | Option.none =>
      let s := input.splitTo 0
      .ok s.1 s.2

/-- `take_while(cond)` from src/crates/parserc/src/lexer.rs lines 92-115:
split off the maximal prefix on which the predicate holds; never errors. -/
def takeWhileP {E : Type} [ParseErrorC E] (f : Char → Bool) : ParserFn Cursor E :=
  fun input =>
    let s := input.splitTo (input.rest.takeWhile f).length
    .ok s.1 s.2

/-- `Vec<T>::parse` from src/crates/parserc/src/syntax.rs lines 105-118: loop
`ok()`-wrapped attempts of the element parser, pushing each `Some` element and
breaking on `None`; the `?` operator propagates the (necessarily `Fatal`)
errors that escape `ok()`. The Rust `loop` is rendered with explicit fuel
(`Option.none` = fuel exhausted), since an element parser that succeeds
without consuming makes the source loop diverge. -/
def vecParse {O E : Type} [ParseErrorC E] (tp : ParserFn O E) :
    Nat → Cursor → Option (PResult (List O) E)
  | 0, _ => Option.none
  | fuel + 1, input =>
    match isOk tp input with
    | .err e i => some (.err e i)
    | .ok Option.none i => some (.ok [] i)
    | .ok (some o) i =>
      match vecParse tp fuel i with
      | Option.none => Option.none
      | some (.ok os i') => some (.ok (o :: os) i')
      | some (.err e i') => some (.err e i')

/-- Output of `Delimiter{start, end, body}` (src/crates/parserc/src/syntax.rs);
the field the source calls `end` is rendered `endTok`. -/
structure DelimOut (S En B : Type) where
  start : S
  endTok : En
  body : B
deriving DecidableEq, Repr

/-- `Delimiter::parse` from src/crates/parserc/src/syntax.rs lines 148-163:
parse `Start` bare, then `Body` and `End` each wrapped in `fatal()`. -/
def delimParse {S En B E : Type} [ParseErrorC E]
    (ps : ParserFn S E) (pe : ParserFn En E) (pb : ParserFn B E) :
    ParserFn (DelimOut S En B) E :=
  fun input =>
    match ps input with
    | .err e i => .err e i
    | .ok s i1 =>
      match fatalP pb i1 with
      | .err e i => .err e i
      | .ok b i2 =>
        match fatalP pe i2 with
        | .err e i => .err e i
        | .ok en i3 => .ok ⟨s, en, b⟩ i3

/-- Consumed-span length used by the `Limits` family
(src/crates/parserc/src/syntax.rs): `None` counts 0, `Range` counts
`range.len()`, `RangeTo` counts `range_to.end`, and the catch-all
(`RangeFrom`/`RangeFull`) has no length (`Option.none`). -/
def spanLen : Span → Option Nat
  | .None => some 0
  | .Range s e => some (e - s)
  | .RangeTo e => some e
  | _ => Option.none

/-- `LimitsTo<T, N>::parse` from src/crates/parserc/src/syntax.rs lines
175-196: capture the input's span, parse `T`, then check the length of
`T`'s span; failures of the check raise `Kind::LimitsTo` (`Recovable`)
at the captured span. `tsp` is `T`'s `to_span`. -/
def limitsToParse {O E : Type} [ParseErrorC E] (N : Nat)
    (tp : ParserFn O E) (tsp : O → Span) : ParserFn O E :=
  fun input =>
    let start := input.toSpan
    match tp input with
    | .err e i => .err e i
    | .ok t i =>
      match spanLen (tsp t) with
      | Option.none => .err (ParseErrorC.fromKind (Kind.LimitsTo .Recovable start)) i
      | some len =>
        if N < len then .err (ParseErrorC.fromKind (Kind.LimitsTo .Recovable start)) i
        else .ok t i

/-- `Limits<T, LOWER, HIGHER>::parse` from src/crates/parserc/src/syntax.rs
lines 213-239: like `LimitsTo` but checking `len < LOWER || !(len < HIGHER)`,
raising `Kind::Limits` (`Recovable`) at the captured span. -/
def limitsParse {O E : Type} [ParseErrorC E] (LOWER HIGHER : Nat)
    (tp : ParserFn O E) (tsp : O → Span) : ParserFn O E :=
  fun input =>
    let start := input.toSpan
    match tp input with
    | .err e i => .err e i
    | .ok t i =>
      match spanLen (tsp t) with
      | Option.none => .err (ParseErrorC.fromKind (Kind.Limits .Recovable start)) i
      | some len =>
        if len < LOWER ∨ ¬ len < HIGHER then
          .err (ParseErrorC.fromKind (Kind.Limits .Recovable start)) i
        else .ok t i

/-- `LimitsFrom<T, LOWER>::parse` from src/crates/parserc/src/syntax.rs lines
251-277. Note that both of its error sites construct `Kind::Limits`, not
`Kind::LimitsFrom` (the `Kind::LimitsFrom` variant declared in
src/crates/parserc/src/errors.rs is never constructed anywhere). -/
def limitsFromParse {O E : Type} [ParseErrorC E] (LOWER : Nat)
    (tp : ParserFn O E) (tsp : O → Span) : ParserFn O E :=
  fun input =>
    let start := input.toSpan
    match tp input with
    | .err e i => .err e i
    | .ok t i =>
      match spanLen (tsp t) with
      | Option.none => .err (ParseErrorC.fromKind (Kind.Limits .Recovable start)) i
      | some len =>
        if len < LOWER then .err (ParseErrorC.fromKind (Kind.Limits .Recovable start)) i
        else .ok t i

/-- Arities for which `derive_tuple_syntax!(len)` emits a tuple impl, from
src/crates/derive/src/tuple.rs: a length below 3 is a compile error
(`Option.none`), otherwise the loop `for i in 2..len` generates one impl per
arity in `[2, len)`. -/
def deriveTupleArities (len : Nat) : Option (List Nat) :=
  if len < 3 then Option.none else some (List.range' 2 (len - 2))

/-- Generated tuple `parse` bodies, from the `quote!` template in
src/crates/derive/src/tuple.rs lines 41-56: one `let (x, input) = X::parse(input)?`
per element, in declaration order, then the tuple of results. Rendered over a
homogeneous list of element parsers and an output list (the template is the
same for every element position). -/
def seqAll {O E : Type} : List (ParserFn O E) → ParserFn (List O) E
  | [] => fun input => .ok [] input
  | p :: ps => fun input =>
    match p input with
    | .err e i => .err e i
    | .ok o i =>
      match seqAll ps i with
      | .err e i' => .err e i'
      | .ok os i' => .ok (o :: os) i'

/-- Identified error kinds of the pattex regex grammar, named `CompileError`
as in src/crates/pattex/src/pattern/repeat.rs (the variants are those of the
kind enum in src/crates/pattex/src/errors.rs). -/
inductive CompileError where
  | S
  | Digits
  | Repeat
  | RepeatRange
  | Escape
  | HexEscape
  | UnicodeEscape
deriving DecidableEq, Repr

/-- Error type of the pattex regex parser, from `RegexError` in
src/crates/pattex/src/errors.rs; the identified variant is named `Compile`
as used in src/crates/pattex/src/pattern/repeat.rs. -/
inductive RegexError where
  | Other (k : Kind)
  | Compile (ck : CompileError) (cf : ControlFlow) (sp : Span)
deriving DecidableEq, Repr

/-- `ParseError` impl for `RegexError`, from src/crates/pattex/src/errors.rs
lines 47-70; `From<Kind>` is the `Other` injection. -/
instance : ParseErrorC RegexError where
  controlFlow
    | .Other k => k.controlFlow
    | .Compile _ cf _ => cf
  intoFatal
    | .Other k => .Other k.intoFatal
    | .Compile ck _ sp => .Compile ck .Fatal sp
  spanOf
    | .Other k => k.spanOf
    | .Compile _ _ sp => sp
  fromKind := .Other

/-- `CompileError::map` from src/crates/pattex/src/errors.rs: re-tag an
underlying error with this kind, keeping its control flow and span. -/
def CompileError.remap (ck : CompileError) (e : RegexError) : RegexError :=
  .Compile ck (ParseErrorC.controlFlow e) (ParseErrorC.spanOf e)

/-- `CompileError::map_fatal` from src/crates/pattex/src/errors.rs: re-tag an
underlying error with this kind and force the severity to `Fatal`. -/
def CompileError.remapFatal (ck : CompileError) (e : RegexError) : RegexError :=
  .Compile ck .Fatal (ParseErrorC.spanOf e)

/-- Modelled from the spec: `take_while_range_from(n, f)` is called by
`Digits::parse` (src/crates/pattex/src/pattern/digits.rs) but is absent from
src/crates/parserc/src/lexer.rs. Per spec §8 a run failing the minimum-length
requirement fails `Recovable` with a zero-width span at the start offset; on
success it consumes the maximal prefix satisfying the predicate. The raw
error kind is unobservable in the claims (every caller re-tags it via
`CompileError.remap`/`remapFatal` or discards it through `ok()`); it is
rendered as `Kind.NextIf`. -/
def takeWhileRangeFrom {E : Type} [ParseErrorC E] (n : Nat) (f : Char → Bool) :
    ParserFn Cursor E :=
  fun input =>
    let m := (input.rest.takeWhile f).length
    if m < n then
      .err (ParseErrorC.fromKind
        (Kind.NextIf .Recovable (Span.Range input.offset input.offset))) input
    else
      let s := input.splitTo m
      .ok s.1 s.2

/-- A parsed digit sequence, from `Digits` in
src/crates/pattex/src/pattern/digits.rs (`value: u64`, plus the consumed slice). -/
structure Digits where
  value : Nat
  input : Cursor
deriving DecidableEq, Repr

/-- Decimal value of a digit string, as computed by `str::parse::<u64>`:
`Option.none` on an empty or non-digit string or on `u64` overflow. -/
def parseU64 (l : List Char) : Option Nat :=
  if l = [] ∨ ¬ l.all Char.isDigit then Option.none
  else
    let v := l.foldl (fun acc c => acc * 10 + (c.toNat - 48)) 0
    if v < 2 ^ 64 then some v else Option.none

/-- `Digits::parse` from src/crates/pattex/src/pattern/digits.rs lines 25-38:
take a non-empty maximal digit run (its error re-tagged `CompileError::Digits`),
then convert it with `str::parse::<u64>` (a conversion failure is `Fatal` at
the content's span). -/
def digitsParse : ParserFn Digits RegexError :=
  fun input =>
    match takeWhileRangeFrom (E := RegexError) 1 Char.isDigit input with
    | .err e i => .err (CompileError.remap .Digits e) i
    | .ok content i =>
      match parseU64 content.rest with
      | Option.none => .err (RegexError.Compile .Digits .Fatal content.toSpan) i
      | some v => .ok ⟨v, content⟩ i

/-- Modelled from the spec: `to_span_at(len)` of the missing pattex input.rs,
the span of the first `len` items of this cursor (the repeat.rs unit tests
pin it: a cursor at offset 0 with `to_span_at(6)` yields `Range(0..6)`). -/
def Cursor.toSpanAt (c : Cursor) (len : Nat) : Span :=
  Span.Range c.offset (c.offset + len)

/-- A regex repeat quantifier, from `Repeat` in
src/crates/pattex/src/pattern/repeat.rs: `{n}`, `{n,}` or `{n,m}` plus the
consumed slice. -/
inductive RepeatT where
  | Rep (n : Digits) (input : Cursor)
  | From (n : Digits) (input : Cursor)
  | RangeR (n m : Digits) (input : Cursor)
deriving DecidableEq, Repr

/-- `Repeat::parse` from src/crates/pattex/src/pattern/repeat.rs lines 35-89:
clone the input as `span`; `next('{')` (error re-tagged `Repeat`), `Digits`
(re-tagged fatal), then an `ok()`-wrapped comma, an `ok()`-wrapped second
`Digits`, and `next('}')` (re-tagged fatal); on `n > m` fail `Fatal` over the
whole consumed token, otherwise return the variant with the consumed slice
`span.split_to(end.end() - span.start())`. -/
def repeatParse : ParserFn RepeatT RegexError :=
  fun input0 =>
    let sp := input0
    match next (E := RegexError) '{' input0 with
    | .err e i => .err (CompileError.remap .Repeat e) i
    | .ok _ i1 =>
      match digitsParse i1 with
      | .err e i => .err (CompileError.remapFatal .Repeat e) i
      | .ok n i2 =>
        match isOk (next (E := RegexError) ',') i2 with
        | .err e i => .err (CompileError.remapFatal .Repeat e) i
        | .ok (some _) i3 =>
          match isOk digitsParse i3 with
          | .err e i => .err (CompileError.remapFatal .Repeat e) i
          | .ok (some m) i4 =>
            match next (E := RegexError) '}' i4 with
            | .err e i => .err (CompileError.remapFatal .Repeat e) i
            | .ok endTok i5 =>
              if m.value < n.value then
                .err (RegexError.Compile .Repeat .Fatal
                  (sp.toSpanAt (endTok.endPos - sp.start))) i5
              else
                .ok (RepeatT.RangeR n m (sp.splitTo (endTok.endPos - sp.start)).1) i5
          | .ok Option.none i4 =>
            match next (E := RegexError) '}' i4 with
            | .err e i => .err (CompileError.remapFatal .Repeat e) i
            | .ok endTok i5 =>
              .ok (RepeatT.From n (sp.splitTo (endTok.endPos - sp.start)).1) i5
        | .ok Option.none i3 =>
          match next (E := RegexError) '}' i3 with
          | .err e i => .err (CompileError.remapFatal .Repeat e) i
          | .ok endTok i5 =>
            .ok (RepeatT.Rep n (sp.splitTo (endTok.endPos - sp.start)).1) i5

end Parserc

namespace Parserc

/-- C4 counterexample: `Span::union` is not commutative.
`RangeTo(..14).union(RangeFrom(18..))` is `None` (the code's own unit test
asserts this), while `RangeFrom(18..).union(RangeTo(..14))` is `RangeFull`. -/
theorem span_union_not_commutative :
    Span.union (Span.RangeTo 14) (Span.RangeFrom 18) ≠
      Span.union (Span.RangeFrom 18) (Span.RangeTo 14) := by
  decide

/-- C4 (amended): `Span::union` is idempotent (`a.union(a) == a` for every
span `a`), but it is not commutative: `RangeTo(..14).union(RangeFrom(18..))`
is `None` while the arguments swapped give `RangeFull`. -/
theorem span_union_idempotent_not_commutative :
    (∀ a : Span, a.union a = a) ∧
      Span.union (Span.RangeTo 14) (Span.RangeFrom 18) = Span.None ∧
      Span.union (Span.RangeFrom 18) (Span.RangeTo 14) = Span.RangeFull := by
  refine ⟨fun a => ?_, rfl, rfl⟩
  cases a <;> simp [Span.union]

/-- C5 counterexample: the union of a `RangeTo` span with a `RangeFrom` span
is not always `RangeFull`: for `..14` and `18..` the code returns `None`
(asserted by the code's own unit test). -/
theorem span_union_rangeto_rangefrom_not_full :
    Span.union (Span.RangeTo 14) (Span.RangeFrom 18) ≠ Span.RangeFull := by
  decide

/-- C5 (amended): `RangeTo(..e).union(RangeFrom(s..))` is `RangeFull` when
`s ≤ e` and `None` when `e < s` (so the spans must touch or overlap for the
union to be `Full`); and `Range(s..e).union(RangeFrom(s'..))` is always
`RangeFrom(min s s'..)`. -/
theorem span_union_kind_rules (e s : Nat) :
    (s ≤ e → Span.union (Span.RangeTo e) (Span.RangeFrom s) = Span.RangeFull) ∧
      (e < s → Span.union (Span.RangeTo e) (Span.RangeFrom s) = Span.None) ∧
      (∀ rs re s' : Nat,
        Span.union (Span.Range rs re) (Span.RangeFrom s') = Span.RangeFrom (min rs s')) := by
  refine ⟨fun h => ?_, fun h => ?_, fun _ _ _ => rfl⟩
  · simp [Span.union, Nat.not_lt.mpr h]
  · simp [Span.union, h]

/-- C5 witness: the amended union-kind rules evaluated at concrete spans. -/
theorem span_union_kind_rules_witness :
    Span.union (Span.RangeTo 18) (Span.RangeFrom 5) = Span.RangeFull ∧
      Span.union (Span.RangeTo 3) (Span.RangeFrom 9) = Span.None ∧
      Span.union (Span.Range 4 7) (Span.RangeFrom 2) = Span.RangeFrom (min 4 2) :=
  ⟨(span_union_kind_rules 18 5).1 (by decide),
   (span_union_kind_rules 3 9).2.1 (by decide),
   (span_union_kind_rules 3 9).2.2 4 7 2⟩

/-- C1: for every parser `p` and input cursor `i`, `ok()` runs `p` on a clone
of `i`; a success passes through with the advanced cursor, a `Recovable` or
`Incomplete` failure becomes `Ok(None)` with the cursor exactly the original
`i`, and a `Fatal` failure propagates unchanged. -/
theorem is_ok_spec {O E : Type} [ParseErrorC E] (p : ParserFn O E) (i : Cursor) :
    (∀ t i', p i = .ok t i' → isOk p i = .ok (some t) i') ∧
      (∀ e i', p i = .err e i' →
        (ParseErrorC.controlFlow e = ControlFlow.Recovable ∨
          ParseErrorC.controlFlow e = ControlFlow.Incomplete) →
        isOk p i = .ok Option.none i) ∧
      (∀ e i', p i = .err e i' → ParseErrorC.controlFlow e = ControlFlow.Fatal →
        isOk p i = .err e i') := by
  refine ⟨fun t i' h => ?_, fun e i' h hcf => ?_, fun e i' h hcf => ?_⟩
  · simp [isOk, h]
  · rcases hcf with h1 | h1 <;> simp [isOk, h, h1]
  · simp [isOk, h, hcf]

/-- C1 witness: `ok()` evaluated at a succeeding keyword parser, at a
`Recovable`-failing one, and at a `fatal()`-escalated one. -/
theorem is_ok_spec_witness :
    isOk (keywordP (E := Kind) ['(']) ⟨0, ['(', 'a']⟩ =
        .ok (some ⟨0, ['(']⟩) ⟨1, ['a']⟩ ∧
      isOk (keywordP (E := Kind) ['(']) ⟨0, ['x']⟩ = .ok Option.none ⟨0, ['x']⟩ ∧
      isOk (fatalP (keywordP (E := Kind) ['('])) ⟨0, ['x']⟩ =
        .err (Kind.Keyword .Fatal (Span.Range 0 1)) ⟨0, ['x']⟩ :=
  ⟨(is_ok_spec (keywordP ['(']) ⟨0, ['(', 'a']⟩).1 ⟨0, ['(']⟩ ⟨1, ['a']⟩ (by decide),
   (is_ok_spec (keywordP ['(']) ⟨0, ['x']⟩).2.1 (Kind.Keyword .Recovable (Span.Range 0 1))
      ⟨0, ['x']⟩ (by decide) (Or.inl (by decide)),
   (is_ok_spec (fatalP (keywordP ['('])) ⟨0, ['x']⟩).2.2
      (Kind.Keyword .Fatal (Span.Range 0 1)) ⟨0, ['x']⟩ (by decide) (by decide)⟩

/-- C10: `next_if` fails `Recovable` both at end of input and on a
mismatching item, while `next` fails `Incomplete` at end of input and
`Recovable` on a mismatching item; every failure leaves the cursor
unchanged (the error's `rest` component is the input cursor itself). -/
theorem next_if_next_severity (f : Char → Bool) (c : Char) (i : Cursor) :
    (i.rest = [] →
        nextIf (E := Kind) f i = .err (Kind.NextIf .Recovable i.toSpan) i ∧
          next (E := Kind) c i = .err (Kind.Next .Incomplete i.toSpan) i) ∧
      (∀ x xs, i.rest = x :: xs → f x = false →
        nextIf (E := Kind) f i = .err (Kind.NextIf .Recovable i.toSpan) i) ∧
      (∀ x xs, i.rest = x :: xs → x ≠ c →
        next (E := Kind) c i = .err (Kind.Next .Recovable i.toSpan) i) := by
  obtain ⟨off, rest⟩ := i
  refine ⟨fun h => ?_, fun x xs h hf => ?_, fun x xs h hx => ?_⟩
  · simp only [Cursor.rest] at h
    subst h
    exact ⟨rfl, rfl⟩
  · simp only [Cursor.rest] at h
    subst h
    simp [nextIf, hf, ParseErrorC.fromKind]
  · simp only [Cursor.rest] at h
    subst h
    simp [next, hx, ParseErrorC.fromKind]

/-- C10 witness: the severities of `next_if` and `next` at a concrete end of
input and at a concrete mismatching item. -/
theorem next_if_next_severity_witness :
    nextIf (E := Kind) Char.isDigit ⟨3, []⟩ =
        .err (Kind.NextIf .Recovable (Cursor.toSpan ⟨3, []⟩)) ⟨3, []⟩ ∧
      next (E := Kind) 'x' ⟨3, []⟩ =
        .err (Kind.Next .Incomplete (Cursor.toSpan ⟨3, []⟩)) ⟨3, []⟩ ∧
      nextIf (E := Kind) Char.isDigit ⟨0, ['a']⟩ =
        .err (Kind.NextIf .Recovable (Cursor.toSpan ⟨0, ['a']⟩)) ⟨0, ['a']⟩ ∧
      next (E := Kind) 'x' ⟨0, ['a']⟩ =
        .err (Kind.Next .Recovable (Cursor.toSpan ⟨0, ['a']⟩)) ⟨0, ['a']⟩ :=
  ⟨((next_if_next_severity Char.isDigit 'x' ⟨3, []⟩).1 rfl).1,
   ((next_if_next_severity Char.isDigit 'x' ⟨3, []⟩).1 rfl).2,
   (next_if_next_severity Char.isDigit 'x' ⟨0, ['a']⟩).2.1 'a' [] rfl (by decide),
   (next_if_next_severity Char.isDigit 'x' ⟨0, ['a']⟩).2.2 'a' [] rfl (by decide)⟩

/-- Helper: when `findSub` reports an offset, the needle occurs there. -/
theorem findSub_some_isPrefixOf (needle : List Char) :
    ∀ (l : List Char) (k : Nat), findSub needle l = some k →
      needle.isPrefixOf (l.drop k) := by
  intro l
  induction l with
  | nil =>
    intro k h
    simp only [findSub] at h
    split at h
    · cases h
      assumption
    · cases h
  | cons x xs ih =>
    intro k h
    simp only [findSub] at h
    split at h
    · cases h
      assumption
    · rcases Option.map_eq_some'.mp h with ⟨k', hk', rfl⟩
      simpa using ih k' hk'

/-- Helper: `findSub` reports the first occurrence of the needle. -/
theorem findSub_some_min (needle : List Char) :
    ∀ (l : List Char) (k : Nat), findSub needle l = some k →
      ∀ j, j < k → ¬ needle.isPrefixOf (l.drop j) := by
  intro l
  induction l with
  | nil =>
    intro k h j hj
    simp only [findSub] at h
    split at h
    · cases h
      omega
    · cases h
  | cons x xs ih =>
    intro k h j hj
    simp only [findSub] at h
    split at h
    · cases h
      omega
    · rcases Option.map_eq_some'.mp h with ⟨k', hk', rfl⟩
      match j with
      | 0 => simpa using ‹¬ needle.isPrefixOf (x :: xs)›
      | j' + 1 =>
        simpa using ih k' hk' j' (by omega)

/-- C9: `take_until(needle)` never returns an error: when the needle first
occurs at offset `k` of the remaining input it consumes and returns exactly
the first `k` items (and `k` really is the first occurrence), and when the
needle does not occur at all it returns an empty slice with the cursor
unchanged instead of failing with an `Incomplete` error. -/
theorem take_until_spec (kw : List Char) (i : Cursor) :
    (∀ k, findSub kw i.rest = some k →
        takeUntil (E := Kind) kw i =
            .ok ⟨i.offset, i.rest.take k⟩ ⟨i.offset + k, i.rest.drop k⟩ ∧
          kw.isPrefixOf (i.rest.drop k) ∧
          ∀ j, j < k → ¬ kw.isPrefixOf (i.rest.drop j)) ∧
      (findSub kw i.rest = Option.none →
        takeUntil (E := Kind) kw i = .ok ⟨i.offset, []⟩ i) ∧
      (∃ o i', takeUntil (E := Kind) kw i = .ok o i') := by
  refine ⟨fun k h => ?_, fun h => ?_, ?_⟩
  · exact ⟨by simp [takeUntil, h, Cursor.splitTo],
      findSub_some_isPrefixOf kw i.rest k h, findSub_some_min kw i.rest k h⟩
  · obtain ⟨off, rest⟩ := i
    simp only [Cursor.rest] at h
    simp [takeUntil, h, Cursor.splitTo]
  · cases h : findSub kw i.rest with
    | none => exact ⟨(i.splitTo 0).1, (i.splitTo 0).2, by simp [takeUntil, h]⟩
    | some k => exact ⟨(i.splitTo k).1, (i.splitTo k).2, by simp [takeUntil, h]⟩

/-- C9 witness: `take_until` at a concrete found needle and at a concrete
absent needle. -/
theorem take_until_spec_witness :
    takeUntil (E := Kind) ['a', 'b'] ⟨0, ['x', 'y', 'a', 'b', 'c']⟩ =
        .ok ⟨0, ['x', 'y']⟩ ⟨2, ['a', 'b', 'c']⟩ ∧
      takeUntil (E := Kind) ['z'] ⟨0, ['x', 'y']⟩ = .ok ⟨0, []⟩ ⟨0, ['x', 'y']⟩ :=
  ⟨((take_until_spec ['a', 'b'] ⟨0, ['x', 'y', 'a', 'b', 'c']⟩).1 2 (by decide)).1,
   (take_until_spec ['z'] ⟨0, ['x', 'y']⟩).2.1 (by decide)⟩

/-- C2 counterexample: `Vec<T>::parse` can return an error. With `T` the
`Delimiter` instance over an opening `"("` keyword, an alphabetic body and a
closing `")"` keyword, the first `ok()`-wrapped attempt on `"(abc"` fails
`Fatal` (no closer), and the `?` in the `Vec` loop propagates that error. -/
theorem vec_parse_error_on_fatal_element :
    vecParse
        (delimParse (keywordP (E := Kind) ['(']) (keywordP [')'])
          (takeWhileP Char.isAlpha))
        1 ⟨0, ['(', 'a', 'b', 'c']⟩ =
      some (.err (Kind.Keyword .Fatal (Span.Range 4 4)) ⟨4, []⟩) := by
  decide

/-- Helper: `next` never produces a `Fatal` error. -/
theorem next_err_not_fatal (c : Char) (i : Cursor) (e : Kind) (i' : Cursor) :
    next (E := Kind) c i = .err e i' → Kind.controlFlow e ≠ ControlFlow.Fatal := by
  intro h
  obtain ⟨off, rest⟩ := i
  cases rest with
  | nil =>
    simp [next, ParseErrorC.fromKind] at h
    simp [← h.1, Kind.controlFlow]
  | cons x xs =>
    by_cases hx : x = c
    · simp [next, hx] at h
    · simp [next, hx, ParseErrorC.fromKind] at h
      simp [← h.1, Kind.controlFlow]

/-- Helper: a successful `next` consumes exactly one item. -/
theorem next_ok_consumes (c : Char) (i : Cursor) (o : Cursor) (i' : Cursor) :
    next (E := Kind) c i = .ok o i' → i'.rest.length < i.rest.length := by
  intro h
  obtain ⟨off, rest⟩ := i
  cases rest with
  | nil => simp [next] at h
  | cons x xs =>
    by_cases hx : x = c
    · simp [next, hx, Cursor.splitTo] at h
      simp [← h.2]
    · simp [next, hx] at h

/-- C2 (amended): `Vec<T>::parse` returns an error only when an attempt of
`T` fails with a `Fatal` error (which the `?` in the loop propagates); when
no failure of `T` is `Fatal` and every success of `T` consumes at least one
item, it always returns `Ok` with the elements parsed so far, and the final
cursor `i'` is exactly where the first non-matching attempt of `T` began
(`T` itself fails at `i'`; the failed attempt consumed nothing). -/
theorem vec_parse_spec {O E : Type} [ParseErrorC E] (tp : ParserFn O E)
    (hnf : ∀ i e i', tp i = .err e i' →
      ParseErrorC.controlFlow e ≠ ControlFlow.Fatal)
    (hprog : ∀ i o i', tp i = .ok o i' → i'.rest.length < i.rest.length) :
    ∀ i : Cursor, ∃ os i',
      vecParse tp (i.rest.length + 1) i = some (.ok os i') ∧
        ∃ e i'', tp i' = .err e i'' := by
  suffices aux : ∀ fuel (i : Cursor), i.rest.length < fuel →
      ∃ os i', vecParse tp fuel i = some (.ok os i') ∧ ∃ e i'', tp i' = .err e i'' by
    intro i
    exact aux (i.rest.length + 1) i (Nat.lt_succ_self _)
  intro fuel
  induction fuel with
  | zero => intro i hi; omega
  | succ fuel ih =>
    intro i hi
    cases h : tp i with
    | ok o i1 =>
      obtain ⟨os, i', heq, hfail⟩ := ih i1 (by have := hprog i o i1 h; omega)
      exact ⟨o :: os, i', by simp [vecParse, isOk, h, heq], hfail⟩
    | err e i1 =>
      refine ⟨[], i, ?_, e, i1, h⟩
      simp [vecParse, isOk, h, hnf i e i1 h]

/-- C2 witness: the amended `Vec` behaviour evaluated with element parser
`next('a')` (never `Fatal`, always consumes on success) on `"aab"`. -/
theorem vec_parse_spec_witness :
    ∃ os i', vecParse (next (E := Kind) 'a') 4 ⟨0, ['a', 'a', 'b']⟩ =
        some (.ok os i') ∧
      ∃ e i'', next (E := Kind) 'a' i' = .err e i'' :=
  vec_parse_spec (next 'a')
    (fun i e i' h => next_err_not_fatal 'a' i e i' h)
    (fun i o i' h => next_ok_consumes 'a' i o i' h)
    ⟨0, ['a', 'a', 'b']⟩

/-- Helper: `Kind::into_fatal` always yields a `Fatal` severity. -/
theorem kind_intoFatal_controlFlow (e : Kind) :
    e.intoFatal.controlFlow = ControlFlow.Fatal := by
  cases e <;> rfl

/-- C3: `Delimiter::parse` propagates a failure of `Start` as-is; once
`Start` has matched, any failure of `Body` or `End` comes back through
`into_fatal`, hence with severity `Fatal`; in particular the instance over
`"("`/`")"` keywords and an alphabetic body fails `Fatal` (not `Recovable`)
on `"(abc"`, which has no closing delimiter. -/
theorem delim_parse_spec {S En B E : Type} [ParseErrorC E]
    (ps : ParserFn S E) (pe : ParserFn En E) (pb : ParserFn B E) (i : Cursor) :
    (∀ e i', ps i = .err e i' → delimParse ps pe pb i = .err e i') ∧
      (∀ s i1 e i2, ps i = .ok s i1 → pb i1 = .err e i2 →
        delimParse ps pe pb i = .err (ParseErrorC.intoFatal e) i2) ∧
      (∀ s i1 b i2 e i3, ps i = .ok s i1 → pb i1 = .ok b i2 → pe i2 = .err e i3 →
        delimParse ps pe pb i = .err (ParseErrorC.intoFatal e) i3) ∧
      (∀ e' : Kind, e'.intoFatal.controlFlow = ControlFlow.Fatal) ∧
      (delimParse (keywordP (E := Kind) ['(']) (keywordP [')'])
          (takeWhileP Char.isAlpha) ⟨0, ['(', 'a', 'b', 'c']⟩ =
        .err (Kind.Keyword .Fatal (Span.Range 4 4)) ⟨4, []⟩) := by
  refine ⟨fun e i' h => ?_, fun s i1 e i2 hs hb => ?_,
    fun s i1 b i2 e i3 hs hb he => ?_, kind_intoFatal_controlFlow, by decide⟩
  · simp [delimParse, h]
  · simp [delimParse, hs, fatalP, hb]
  · simp [delimParse, hs, fatalP, hb, he]

/-- C3 witness: the three propagation cases of `Delimiter::parse` at concrete
keyword parsers and cursors. -/
theorem delim_parse_spec_witness :
    delimParse (keywordP (E := Kind) ['(']) (keywordP [')']) (keywordP ['b'])
        ⟨0, ['x']⟩ = .err (Kind.Keyword .Recovable (Span.Range 0 1)) ⟨0, ['x']⟩ ∧
      delimParse (keywordP (E := Kind) ['(']) (keywordP [')']) (keywordP ['b'])
          ⟨0, ['(', 'x']⟩ =
        .err (Kind.intoFatal (Kind.Keyword .Recovable (Span.Range 1 2))) ⟨1, ['x']⟩ ∧
      delimParse (keywordP (E := Kind) ['(']) (keywordP [')']) (keywordP ['b'])
          ⟨0, ['(', 'b']⟩ =
        .err (Kind.intoFatal (Kind.Keyword .Recovable (Span.Range 2 2))) ⟨2, []⟩ :=
  ⟨(delim_parse_spec (keywordP ['(']) (keywordP [')']) (keywordP ['b']) ⟨0, ['x']⟩).1
      (Kind.Keyword .Recovable (Span.Range 0 1)) ⟨0, ['x']⟩ (by decide),
   (delim_parse_spec (keywordP ['(']) (keywordP [')']) (keywordP ['b'])
        ⟨0, ['(', 'x']⟩).2.1 ⟨0, ['(']⟩ ⟨1, ['x']⟩
      (Kind.Keyword .Recovable (Span.Range 1 2)) ⟨1, ['x']⟩ (by decide) (by decide),
   (delim_parse_spec (keywordP ['(']) (keywordP [')']) (keywordP ['b'])
        ⟨0, ['(', 'b']⟩).2.2.1 ⟨0, ['(']⟩ ⟨1, ['b']⟩ ⟨1, ['b']⟩ ⟨2, []⟩
      (Kind.Keyword .Recovable (Span.Range 2 2)) ⟨2, []⟩
      (by decide) (by decide) (by decide)⟩

/-- C6: `LimitsFrom<T, LOWER>::parse` does not report its own error kind.
With `T` consuming the two alphabetic items of the input (consumed span
`Range(0..2)`, length 2) and `LOWER = 3`, the out-of-bound length produces a
`Recovable` error at the span captured before `T` ran, but its kind is
`Kind::Limits` — not `Kind::LimitsFrom` for any payload, even though that
variant is declared in src/crates/parserc/src/errors.rs (it is never
constructed anywhere in the crate). -/
theorem limits_from_wrong_kind :
    limitsFromParse (E := Kind) 3 (takeWhileP Char.isAlpha) Cursor.toSpan
        ⟨0, ['a', 'b']⟩ =
      .err (Kind.Limits .Recovable (Span.Range 0 2)) ⟨2, []⟩ ∧
    ∀ cf sp, Kind.Limits ControlFlow.Recovable (Span.Range 0 2) ≠ Kind.LimitsFrom cf sp := by
  exact ⟨by decide, fun cf sp h => Kind.noConfusion h⟩

/-- C7: on `"{10,}"` the repeat-quantifier parser succeeds with the
from-quantifier variant whose `n` has value 10 and whose consumed slice is
exactly `"{10,}"`; on `"{10,5}"` (n greater than m) it fails with a `Fatal`
error whose span is `Range(0..6)`, covering the whole token. -/
theorem repeat_parse_examples :
    repeatParse ⟨0, ['{', '1', '0', ',', '}']⟩ =
        .ok (RepeatT.From ⟨10, ⟨1, ['1', '0']⟩⟩ ⟨0, ['{', '1', '0', ',', '}']⟩)
          ⟨5, []⟩ ∧
      repeatParse ⟨0, ['{', '1', '0', ',', '5', '}']⟩ =
        .err (RegexError.Compile .Repeat .Fatal (Span.Range 0 6)) ⟨6, []⟩ := by
  exact ⟨by decide, by decide⟩

/-- C8 counterexample: `derive_tuple_syntax!(16)` does not produce an
implementation for 16-element tuples: the generator's loop `for i in 2..len`
is exclusive at the top, so the emitted arity list stops at 15. -/
theorem tuple_arities_exclude_16 :
    (deriveTupleArities 16).isSome = true ∧
      16 ∉ (deriveTupleArities 16).getD [] := by
  decide

/-- C8 (amended): `derive_tuple_syntax!(16)` implements the tuple protocol
exactly for arities 2 through 15 (not 16), and each generated `parse` runs
the element parsers in left-to-right declaration order, stopping at the first
element that fails and propagating its error. -/
theorem tuple_arities_and_sequencing {O E : Type} :
    (∀ n, n ∈ (deriveTupleArities 16).getD [] ↔ 2 ≤ n ∧ n < 16) ∧
      (∀ (p : ParserFn O E) (ps : List (ParserFn O E)) (i : Cursor) (e : E)
        (i' : Cursor), p i = .err e i' → seqAll (p :: ps) i = .err e i') ∧
      (∀ (p : ParserFn O E) (ps : List (ParserFn O E)) (i : Cursor) (o : O)
        (i' : Cursor), p i = .ok o i' →
        seqAll (p :: ps) i =
          match seqAll ps i' with
          | .err e i'' => .err e i''
          | .ok os i'' => .ok (o :: os) i'') := by
  refine ⟨fun n => ?_, fun p ps i e i' h => ?_, fun p ps i o i' h => ?_⟩
  · simp only [deriveTupleArities]
    norm_num [List.mem_range'_1]
  · simp [seqAll, h]
  · simp [seqAll, h]

/-- C8 witness: the amended tuple rules at concrete arities and parsers —
arity 5 is generated; a two-element sequence fails at its first failing
element and otherwise threads the cursor left to right. -/
theorem tuple_arities_and_sequencing_witness :
    (5 ∈ (deriveTupleArities 16).getD []) ∧
      seqAll [next (E := Kind) 'a'] ⟨0, ['b']⟩ =
        .err (Kind.Next .Recovable (Span.Range 0 1)) ⟨0, ['b']⟩ ∧
      seqAll [next (E := Kind) 'a', next 'b'] ⟨0, ['a', 'b']⟩ =
        .ok [⟨0, ['a']⟩, ⟨1, ['b']⟩] ⟨2, []⟩ :=
  ⟨((tuple_arities_and_sequencing (O := Cursor) (E := Kind)).1 5).mpr (by decide),
   (tuple_arities_and_sequencing (O := Cursor) (E := Kind)).2.1 (next 'a') []
      ⟨0, ['b']⟩ (Kind.Next .Recovable (Span.Range 0 1)) ⟨0, ['b']⟩ (by decide),
   (tuple_arities_and_sequencing (O := Cursor) (E := Kind)).2.2 (next 'a')
      [next 'b'] ⟨0, ['a', 'b']⟩ ⟨0, ['a']⟩ ⟨1, ['b']⟩ (by decide)⟩

end Parserc
